import Mathlib

/-!
Verification development for the metadata-normalization and interface-generation
core of the ui5-typescript interface generator.

The TypeScript sources embedded here:
* `collectClassInfo.ts` (the metadata normalizer): `rPlural` / `mSingular` /
  `guessSingularName`, `expandDefaultKey`, the `each` iteration helper, `upper`,
  and the per-member-kind record builders inside `collectClassInfo`.
* `generateInterfaces.ts`: `interestingBaseClasses`, `getInterestingBaseClass`,
  `generateInterface`, `generateInterfaces`.

JavaScript dynamic values are modelled by the inductive `JSValue`; machine
behaviour relevant to the claims (truthiness, `||`, `typeof`, property access
returning `undefined`, object insertion order) is made explicit.  Where the
spec designates collaborators as external (the relaxed-syntax Hjson parser,
the AST rendering, the type-resolution oracle), those appear as function
parameters of the embedded definitions.
-/

namespace UI5

/-- Model of a JavaScript runtime value as far as the analysed code observes it.
Arrays keep their elements (`arr`); objects are ordered field lists, mirroring
JS string-key insertion order.  Numbers are modelled as integers (the metadata
values exercised by the code are small literals; floating point is never
branched on). -/
inductive JSValue where
  | undefined
  | null
  | bool (b : Bool)
  | num (n : Int)
  | str (s : String)
  | arr (elems : List JSValue)
  | obj (fields : List (String × JSValue))
deriving Repr

/-- JS truthiness: `undefined`, `null`, `false`, `0`, and `""` are falsy;
every object and array (even empty) is truthy. -/
def jsTruthy : JSValue → Bool
  | .undefined => false
  | .null => false
  | .bool b => b
  | .num n => n != 0
  | .str s => s != ""
  | .arr _ => true
  | .obj _ => true

/-- JS `a || b`: the first operand if truthy, otherwise the second. -/
def jsOr (a b : JSValue) : JSValue :=
  if jsTruthy a then a else b

/-- JS loose `x == null`, true exactly for `null` and `undefined`. -/
def isNullish : JSValue → Bool
  | .undefined => true
  | .null => true
  | _ => false

/-- Is the value exactly `undefined` (JS strict `x !== undefined` negated)? -/
def jsIsUndefined : JSValue → Bool
  | .undefined => true
  | _ => false

/-- Property read `v[k]`: field lookup on objects (first binding wins; parsed
objects have unique keys), `undefined` on every other value.  The analysed code
never reads a property off `null`/`undefined` (which would throw): `each`
null-checks its entries first. -/
def getField : JSValue → String → JSValue
  | .obj fields, k =>
    match fields.find? (fun p => p.1 == k) with
    | some p => p.2
    | none => .undefined
  | _, _ => .undefined

/-- The own enumerable entries walked by `for (let n in map)`.  The code guards
with `if (map)` so falsy maps contribute nothing; a truthy primitive in map
position (`for..in` over a string iterates index keys) is outside the shapes
the claims quantify over and is modelled as empty. -/
def jsOwnEntries : JSValue → List (String × JSValue)
  | .obj fields => fields
  | _ => []

/-- JS string conversion, used only where the source interpolates a value into
a message or (unsoundly, see `mkAggregation`) where a truthy non-string in a
name position would make the JS code throw before producing a record. -/
def jsAsString : JSValue → String
  | .undefined => "undefined"
  | .null => "null"
  | .bool true => "true"
  | .bool false => "false"
  | .num n => toString n
  | .str s => s
  | .arr _ => ""
  | .obj _ => "[object Object]"

/-! ### Pluralization heuristic

Source:

```
const rPlural = /(children|ies|ves|oes|ses|ches|shes|xes|s)$/i;
const mSingular = { children: -3, ies: "y", ves: "f", oes: -2, ses: -2,
                    ches: -2, shes: -2, xes: -2, s: -1 };
function guessSingularName(sPluralName) {
  return sPluralName.replace(rPlural, ($, sPlural) => {
    const vRepl = mSingular[sPlural.toLowerCase()];
    return typeof vRepl === "string" ? vRepl : sPlural.slice(0, vRepl);
  });
}
```

The regex is anchored at the end of the string, so a candidate alternative
matches at position `i` exactly when the remainder of the string from `i`
equals the alternative case-insensitively.  The JS regex engine scans start
positions left to right and, at each position, tries the alternatives in
the written order; `String.replace` with a non-global regex replaces the
single match found this way.  A negative `mSingular` value `-k` is applied as
`sPlural.slice(0, -k)`, i.e. the matched text minus its last `k` characters.
-/

/-- Case folding used for the `/i` regex flag and the `toLowerCase` lookup
(the inputs are ASCII member names, where both coincide with `Char.toLower`). -/
def lowerL (l : List Char) : List Char := l.map Char.toLower

/-- The alternation of `rPlural` in source order, paired with the `mSingular`
action for each alternative: `Sum.inl r` is a string replacement, `Sum.inr k`
is `slice(0, -k)` (drop the last `k` characters of the match). -/
def singularAlts : List (List Char × (List Char ⊕ Nat)) :=
  [("children".toList, Sum.inr 3),
   ("ies".toList, Sum.inl "y".toList),
   ("ves".toList, Sum.inl "f".toList),
   ("oes".toList, Sum.inr 2),
   ("ses".toList, Sum.inr 2),
   ("ches".toList, Sum.inr 2),
   ("shes".toList, Sum.inr 2),
   ("xes".toList, Sum.inr 2),
   ("s".toList, Sum.inr 1)]

/-- Apply an `mSingular` action to the matched text. -/
def applyRepl (m : List Char) : (List Char ⊕ Nat) → List Char
  | Sum.inl r => r
  | Sum.inr k => m.take (m.length - k)

/-- The single match of `rPlural` on the input, as found by the JS engine:
scan start positions left to right; at each position an alternative matches
when it equals the whole remaining string case-insensitively (the `$` anchor);
the first alternative in table order wins at a position.  Returns the prefix
before the match, the matched text (original case) and its action. -/
def findMatch : List Char → Option (List Char × List Char × (List Char ⊕ Nat))
  | [] => none
  | c :: cs =>
    match singularAlts.find? (fun p => lowerL (c :: cs) == p.1) with
    | some p => some ([], c :: cs, p.2)
    | none =>
      match findMatch cs with
      | some r => some (c :: r.1, r.2)
      | none => none

/-- `guessSingularName` on character lists: replace the match (if any) by its
`mSingular` action, keeping the unmatched prefix. -/
def guessSingularNameL (l : List Char) : List Char :=
  match findMatch l with
  | none => l
  | some (pre, m, v) => pre ++ applyRepl m v

/-- `guessSingularName` from the source. -/
def guessSingularName (s : String) : String :=
  String.mk (guessSingularNameL s.toList)

/-! Spec-side model of the pluralization heuristic, written from the spec's
words ("matches the longest applicable suffix from the ordered table,
case-insensitive on the suffix, unmatched prefix keeps its case, no match
returns the input unchanged") — to be compared with `guessSingularName`. -/

/-- Is the table entry's suffix a case-insensitive suffix of the input? -/
def isApplicableSuffix (l : List Char) (p : List Char × (List Char ⊕ Nat)) : Bool :=
  p.1.isSuffixOf (lowerL l)

/-- Pick the entry with the longest suffix (earlier table entry wins a tie;
ties cannot occur between distinct applicable entries). -/
def pickLongest : List (List Char × (List Char ⊕ Nat)) →
    Option (List Char × (List Char ⊕ Nat))
  | [] => none
  | p :: ps =>
    match pickLongest ps with
    | none => some p
    | some q => if p.1.length < q.1.length then some q else some p

/-- Spec-side singularization on character lists: replace the longest
applicable table suffix, keep the prefix, return unchanged when no suffix
applies. -/
def singularOfSpecL (l : List Char) : List Char :=
  match pickLongest (singularAlts.filter (isApplicableSuffix l)) with
  | none => l
  | some (alt, v) =>
    l.take (l.length - alt.length) ++ applyRepl (l.drop (l.length - alt.length)) v

/-- Spec-side singularization on strings. -/
def singularOfSpec (s : String) : String :=
  String.mk (singularOfSpecL s.toList)

/-! ### Shorthand expander

Source:

```
function expandDefaultKey(node, defaultKey) {
  if (node != null) {
    if (typeof node === "string" && defaultKey != null) {
      let result = {};
      result[defaultKey] = node;
      return result;
    }
  }
  return node;
}
```

`defaultKey` is modelled as `Option String` (`none` = the `null` passed for
events).  The wrap fires exactly for string nodes with a present default key
(a string is never `null`, so the outer null-check adds nothing there);
every other node — records, scalars of other types, `null`, `undefined` —
is returned unchanged. -/

def expandDefaultKey (node : JSValue) (defaultKey : Option String) : JSValue :=
  match node, defaultKey with
  | .str s, some k => .obj [(k, .str s)]
  | _, _ => node

/-- Spec-side notion of a bare scalar metadata entry (string, number or
boolean), written from the spec's words for comparison with the
string-only test in `expandDefaultKey`. -/
def isBareScalarSpec : JSValue → Bool
  | .str _ => true
  | .num _ => true
  | .bool _ => true
  | _ => false

/-! ### The `each` iteration helper

Source:

```
function each(map, defaultKey, callback) {
  if (map) {
    for (let n in map) {
      if (map.hasOwnProperty(n)) {
        const settings = expandDefaultKey(map[n], defaultKey);
        if (settings == null) {
          console.warn(`no valid metadata for ...`);
          continue;
        }
        callback(n, settings, null, map[n]);
      }
    }
  }
}
```

The model returns the list of callback results in iteration order together
with the list of `console.warn` diagnostics for the skipped entries. -/

/-- Diagnostic text produced for a skipped entry (the source interpolates
the entry name and the raw value into a template literal). -/
def eachWarning (n : String) (v : JSValue) : String :=
  "no valid metadata for " ++ n ++ " (AST type " ++ jsAsString v ++ ")"

/-- The `each` loop: expand every entry; an entry whose expansion is loosely
`null` (i.e. the entry was `null`/`undefined`) is skipped with a diagnostic,
every other entry is handed to the callback. -/
def eachM {α : Type} (m : List (String × JSValue)) (defaultKey : Option String)
    (f : String → JSValue → α) : List α × List String :=
  match m with
  | [] => ([], [])
  | (n, v) :: rest =>
    let settings := expandDefaultKey v defaultKey
    let r := eachM rest defaultKey f
    if isNullish settings then (r.1, eachWarning n v :: r.2)
    else (f n settings :: r.1, r.2)

/-! ### Typed member records and their builders

These mirror the record literals assigned inside `collectClassInfo`.  The
class doclet is the constant `null` in the source (`let classDoclet = null`),
so every doclet-derived field (`doc`, `since`, `deprecation`, `experimental`)
is the JS value `null`; the model keeps the fields and that constant.  Fields
that the JS code stores without inspecting keep type `JSValue`; fields the JS
code feeds into string concatenation (the member name, the singular name) are
strings — a truthy non-string in those positions would make the JS `upper`
helper throw before any record is produced, so no record shape is lost. -/

/-- `upper` from the source: `n.slice(0, 1).toUpperCase() + n.slice(1)`. -/
def upper (n : String) : String :=
  match n.toList with
  | [] => ""
  | c :: cs => String.mk (c.toUpper :: cs)

structure Property where
  name : String
  doc : JSValue
  since : JSValue
  deprecation : JSValue
  experimental : JSValue
  visibility : JSValue
  type : JSValue
  defaultValue : JSValue
  bindable : Bool
  methods : List (String × String)
deriving Repr

structure Aggregation where
  name : String
  doc : JSValue
  deprecation : JSValue
  since : JSValue
  experimental : JSValue
  visibility : JSValue
  type : JSValue
  altTypes : JSValue
  singularName : String
  cardinality : String
  bindable : JSValue
  methods : List (String × String)
deriving Repr

structure Association where
  name : String
  doc : JSValue
  deprecation : JSValue
  since : JSValue
  experimental : JSValue
  visibility : JSValue
  type : JSValue
  singularName : String
  cardinality : String
  methods : List (String × String)
deriving Repr

structure EventParameter where
  name : String
  doc : JSValue
  deprecation : JSValue
  since : JSValue
  experimental : JSValue
  type : JSValue
deriving Repr

structure UI5Event where
  name : String
  doc : JSValue
  deprecation : JSValue
  since : JSValue
  experimental : JSValue
  visibility : JSValue
  allowPreventDefault : Bool
  enableEventBubbling : Bool
  parameters : List (String × EventParameter)
  methods : List (String × String)
deriving Repr

structure SpecialSetting where
  name : String
  doc : JSValue
  since : JSValue
  deprecation : JSValue
  experimental : JSValue
  visibility : JSValue
  type : JSValue
deriving Repr

/-- The `specialSettings` callback. -/
def mkSpecialSetting (n : String) (settings : JSValue) : SpecialSetting :=
  { name := n
    doc := .null, since := .null, deprecation := .null, experimental := .null
    visibility := jsOr (getField settings "visibility") (.str "public")
    type := if jsTruthy (getField settings "type") then getField settings "type"
            else .str "any" }

/-- The `properties` callback: `get`/`set` accessors, `bind`/`unbind` when the
`bindable` flag is truthy (`settings.bindable ? !!settings.bindable : false`
is exactly truthiness of the raw flag). -/
def mkProperty (n : String) (settings : JSValue) : Property :=
  let N := upper n
  let bindable := jsTruthy (getField settings "bindable")
  { name := n
    doc := .null, since := .null, deprecation := .null, experimental := .null
    visibility := jsOr (getField settings "visibility") (.str "public")
    type := jsOr (getField settings "type") (.str "string")
    defaultValue := getField settings "defaultValue"
    bindable := bindable
    methods :=
      [("get", "get" ++ N), ("set", "set" ++ N)] ++
        (if bindable then [("bind", "bind" ++ N), ("unbind", "unbind" ++ N)] else []) }

/-- The `aggregations` callback.  Cardinality comes from
`settings.multiple !== undefined && !settings.multiple ? "0..1" : "0..n"`;
the `bindable` field is stored raw and tested for truthiness when appending
`bind`/`unbind`. -/
def mkAggregation (n : String) (settings : JSValue) : Aggregation :=
  let N := upper n
  let singularName :=
    if jsTruthy (getField settings "singularName")
    then jsAsString (getField settings "singularName")
    else guessSingularName n
  let cardinality :=
    if !jsIsUndefined (getField settings "multiple") &&
       !jsTruthy (getField settings "multiple")
    then "0..1" else "0..n"
  let bindable := getField settings "bindable"
  { name := n
    doc := .null, deprecation := .null, since := .null, experimental := .null
    visibility := jsOr (getField settings "visibility") (.str "public")
    type := if jsTruthy (getField settings "type") then getField settings "type"
            else .str "sap.ui.core.Control"
    altTypes := if jsTruthy (getField settings "altTypes")
                then getField settings "altTypes" else .undefined
    singularName := singularName
    cardinality := cardinality
    bindable := bindable
    methods :=
      [("get", "get" ++ N), ("destroy", "destroy" ++ N)] ++
        (if cardinality = "0..1" then [("set", "set" ++ N)]
         else
           let N1 := upper singularName
           [("insert", "insert" ++ N1), ("add", "add" ++ N1),
            ("remove", "remove" ++ N1), ("indexOf", "indexOf" ++ N1),
            ("removeAll", "removeAll" ++ N)]) ++
        (if jsTruthy bindable then [("bind", "bind" ++ N), ("unbind", "unbind" ++ N)]
         else []) }

/-- The `associations` callback.  Cardinality comes from
`settings.multiple && settings.multiple ? "0..n" : "0..1"` (truthiness);
no `destroy`, `insert`, `indexOf`, `bind` or `unbind` accessors exist. -/
def mkAssociation (n : String) (settings : JSValue) : Association :=
  let N := upper n
  let singularName :=
    if jsTruthy (getField settings "singularName")
    then jsAsString (getField settings "singularName")
    else guessSingularName n
  let cardinality := if jsTruthy (getField settings "multiple") then "0..n" else "0..1"
  { name := n
    doc := .null, deprecation := .null, since := .null, experimental := .null
    visibility := jsOr (getField settings "visibility") (.str "public")
    type := if jsTruthy (getField settings "type") then getField settings "type"
            else .str "sap.ui.core.Control"
    singularName := singularName
    cardinality := cardinality
    methods :=
      [("get", "get" ++ N)] ++
        (if cardinality = "0..1" then [("set", "set" ++ N)]
         else
           let N1 := upper singularName
           [("add", "add" ++ N1), ("remove", "remove" ++ N1),
            ("removeAll", "removeAll" ++ N)]) }

/-- The event-parameter callback: `pSettings && pSettings.type ? pSettings.type : ""`. -/
def mkEventParameter (pName : String) (pSettings : JSValue) : EventParameter :=
  { name := pName
    doc := .null, deprecation := .null, since := .null, experimental := .null
    type := if jsTruthy pSettings && jsTruthy (getField pSettings "type")
            then getField pSettings "type" else .str "" }

/-- The `events` callback.  The source hard-codes the visibility (the
`settings.visibility` read is commented out):

```
visibility: /* (settings.visibility && settings.visibility) || */ "public",
```
-/
def mkEvent (n : String) (settings : JSValue) : UI5Event :=
  let N := upper n
  { name := n
    doc := .null, deprecation := .null, since := .null, experimental := .null
    visibility := .str "public"
    allowPreventDefault := jsTruthy (getField settings "allowPreventDefault")
    enableEventBubbling := jsTruthy (getField settings "enableEventBubbling")
    parameters :=
      (eachM (jsOwnEntries (getField settings "parameters")) (some "type")
        (fun p ps => (p, mkEventParameter p ps))).1
    methods :=
      [("attach", "attach" ++ N), ("detach", "detach" ++ N), ("fire", "fire" ++ N)] }

/-- The canonical class description assembled by `collectClassInfo`.  Member
maps are kept as lists in JS object-iteration order. -/
structure ClassInfo where
  name : String
  interfaces : JSValue
  doc : JSValue
  deprecation : JSValue
  since : JSValue
  experimental : JSValue
  specialSettings : List (String × SpecialSetting)
  properties : List (String × Property)
  defaultProperty : JSValue
  aggregations : List (String × Aggregation)
  defaultAggregation : JSValue
  associations : List (String × Association)
  events : List (String × UI5Event)
  designtime : JSValue
  stereotype : JSValue
  library : JSValue
  abstract : Bool
  final : Bool
deriving Repr

/-- The `oClassInfo` initial literal (the class doclet is the constant
`null`, so all doclet-derived fields start as `null`). -/
def initialClassInfo (className : String) : ClassInfo :=
  { name := className
    interfaces := .arr []
    doc := .null, deprecation := .null, since := .null, experimental := .null
    specialSettings := [], properties := [], aggregations := []
    associations := [], events := []
    defaultProperty := .undefined, defaultAggregation := .undefined
    designtime := .bool false
    stereotype := .null
    library := .undefined
    abstract := false, final := false }

/-- `collectClassInfo(metadata, className)`: normalize a parsed metadata
object into a `ClassInfo`.  Mirrors the source body: every assignment inside
`if (metadata)` is reproduced; `(x && x) || d` is truthiness selection
(`jsOr`); the member maps are built by the `each` loops. -/
def collectClassInfo (metadata : JSValue) (className : String) : ClassInfo :=
  let base := initialClassInfo className
  if jsTruthy metadata then
    let designtimeRaw := jsOr (getField metadata "designtime") (getField metadata "designTime")
    { base with
      stereotype := jsOr (getField metadata "stereotype") .undefined
      library := jsOr (getField metadata "library") .undefined
      abstract := jsTruthy (getField metadata "abstract")
      final := jsTruthy (getField metadata "final")
      interfaces := if jsTruthy (getField metadata "interfaces")
                    then getField metadata "interfaces" else base.interfaces
      specialSettings :=
        (eachM (jsOwnEntries (getField metadata "specialSettings")) (some "type")
          (fun n s => (n, mkSpecialSetting n s))).1
      defaultProperty := jsOr (getField metadata "defaultProperty") .undefined
      properties :=
        (eachM (jsOwnEntries (getField metadata "properties")) (some "type")
          (fun n s => (n, mkProperty n s))).1
      defaultAggregation := jsOr (getField metadata "defaultAggregation") .undefined
      aggregations :=
        (eachM (jsOwnEntries (getField metadata "aggregations")) (some "type")
          (fun n s => (n, mkAggregation n s))).1
      associations :=
        (eachM (jsOwnEntries (getField metadata "associations")) (some "type")
          (fun n s => (n, mkAssociation n s))).1
      events :=
        (eachM (jsOwnEntries (getField metadata "events")) none
          (fun n s => (n, mkEvent n s))).1
      designtime :=
        match designtimeRaw with
        | .str s => .str s
        | .bool b => .bool b
        | _ => base.designtime }
  else base

/-! ### Class discovery: the base-type walk

Source (`generateInterfaces.ts`):

```
const interestingBaseClasses = {
  '"sap/ui/base/ManagedObject".ManagedObject': "ManagedObject",
  '"sap/ui/base/EventProvider".EventProvider': "EventProvider",
  '"sap/ui/core/Element".UI5Element': "Element",
  '"sap/ui/core/Control".Control': "Control",
};

function getInterestingBaseClass(type, typeChecker) {
  let interestingBaseClass =
    interestingBaseClasses[typeChecker.getFullyQualifiedName(type.getSymbol())];
  if (interestingBaseClass) return interestingBaseClass;
  if (!type.isClassOrInterface()) return;
  const baseTypes = typeChecker.getBaseTypes(type);
  for (let i = 0; i < baseTypes.length; i++) {
    if ((interestingBaseClass = getInterestingBaseClass(baseTypes[i], typeChecker)))
      return interestingBaseClass;
  }
  return undefined;
}
```

The TypeScript type checker is the external type-resolution oracle; it is
modelled by `TypeOracle` with types named by `Nat` ids.  The source recursion
carries no visited set and no depth bound, so it cannot be rendered as a total
Lean function directly; `gibcFuel` is the standard fuel-indexed embedding:
`gibcFuel fuel o t = none` means the unguarded recursion has not produced an
answer within recursion depth `fuel`, and `some r` means the source returns
`r` (`some tier` for a registry hit, `none` for undefined).  The source
terminates on `t` with result `r` iff `gibcFuel fuel o t = some r` for some
fuel, and diverges on `t` iff `gibcFuel fuel o t = none` for every fuel. -/

structure TypeOracle where
  fqn : Nat → String
  isClassOrInterface : Nat → Bool
  baseTypes : Nat → List Nat

/-- The fixed registry mapping fully-qualified names to foundational tiers. -/
def interestingBaseClasses : List (String × String) :=
  [("\"sap/ui/base/ManagedObject\".ManagedObject", "ManagedObject"),
   ("\"sap/ui/base/EventProvider\".EventProvider", "EventProvider"),
   ("\"sap/ui/core/Element\".UI5Element", "Element"),
   ("\"sap/ui/core/Control\".Control", "Control")]

/-- Registry lookup (`interestingBaseClasses[fqn]`); the tier strings are
nonempty, so the source's truthiness test on the lookup result coincides
with `Option.isSome`. -/
def lookupTier (fqn : String) : Option String :=
  (interestingBaseClasses.find? (fun p => p.1 == fqn)).map Prod.snd

mutual

/-- Fuel-indexed `getInterestingBaseClass`: registry hit wins immediately;
non-class types yield `undefined`; otherwise walk the oracle's base types
depth-first, first hit wins. -/
def gibcFuel (o : TypeOracle) : Nat → Nat → Option (Option String)
  | 0, _ => none
  | fuel + 1, t =>
    match lookupTier (o.fqn t) with
    | some tier => some (some tier)
    | none =>
      if o.isClassOrInterface t then gibcList o fuel (o.baseTypes t)
      else some none
termination_by fuel _t => (fuel, 0)

/-- The `for` loop over `baseTypes`: recurse into each base in order; a
truthy (tier) result returns immediately; falling off the end yields
`undefined`. -/
def gibcList (o : TypeOracle) : Nat → List Nat → Option (Option String)
  | _, [] => some none
  | fuel, b :: bs =>
    match gibcFuel o fuel b with
    | none => none
    | some (some tier) => some (some tier)
    | some none => gibcList o fuel bs
termination_by fuel bs => (fuel, bs.length + 1)

end

/-- A concrete oracle whose base-type graph is a self-loop at type `0`:
type `0` is a class, is not in the registry, and is its own base type.
This is the shape the spec's defensive-guard requirement talks about. -/
def cyclicOracle : TypeOracle :=
  { fqn := fun _ => "\"test/Cyclic\".Cyclic"
    isClassOrInterface := fun _ => true
    baseTypes := fun _ => [0] }

/-- Divergence of the walk in the fuel embedding: no recursion depth ever
produces an answer. -/
def walkDiverges (o : TypeOracle) (t : Nat) : Prop :=
  ∀ fuel : Nat, gibcFuel o fuel t = none

/-! ### Interface generation per class and per module

Source (`generateInterfaces.ts`):

```
let metadata = classDeclaration.members.filter((member) => {
  if (ts.isPropertyDeclaration(member) && ts.isIdentifier(member.name) &&
      member.name.escapedText === "metadata" &&
      member.modifiers.some((modifier) => {
        return modifier.kind === ts.SyntaxKind.StaticKeyword;
      })) {
    return true;
  }
});
if (!metadata || metadata.length !== 1) { return; }
const metadataText = metadata[0].initializer.getText(sourceFile);
try { metadataObject = Hjson.parse(metadataText); } catch (e) { throw new Error(...); }
if (!metadataObject.properties && !metadataObject.aggregations &&
    !metadataObject.associations && !metadataObject.events) { return; }
```

Two accesses in this path are unguarded and throw a `TypeError` on shapes
the TypeScript AST can produce:
* `member.modifiers.some(...)` — `modifiers` is `undefined` on a member
  written without modifiers, so a plain instance-level `metadata = {...}`
  field makes the filter callback itself throw;
* `metadata[0].initializer.getText(...)` — `initializer` is `undefined` on
  a declaration without initializer (`static metadata;`), so the text
  extraction throws.
Both are modelled: `modifiers` and `initializer` are `Option`s, the member
filter is fallible (`filterMetadataMembers`), and the two `TypeError`s are
explicit error values.  The `&&` chain in the filter callback is
short-circuiting, so `modifiers` is only touched on property declarations
whose identifier name is `metadata` — exactly when the source touches it.

A parse failure of the single member's initializer text is re-thrown as an
`Error` whose message names the class and the source file.  If the parsed
object has none of `properties`/`aggregations`/`associations`/`events`, the
function returns nothing; otherwise it normalizes via `collectClassInfo` and
hands the result to the external AST builder/serializer (`buildAST` /
`astToString`), which may still report "nothing to generate" (`null`).

`generateInterfaces` runs `generateInterface` over every discovered class of
the module in order (`mos.forEach`) and feeds each truthy (nonempty) result
to the result processor.  There is no `try`/`catch` around the loop body:
an exception thrown for one class propagates out of `forEach`, so classes
after the failing one are not processed.

The external parser and renderer are parameters `parse` and `render`;
exceptions are modelled by `Except`; the module run returns the outputs
emitted before any throw, plus the escaped error if one occurred. -/

/-- The kind of a member modifier, as far as the filter inspects it:
`ts.SyntaxKind.StaticKeyword` or anything else. -/
inductive ModifierKind where
  | staticKeyword
  | other
deriving Repr, DecidableEq

/-- The slice of a `ts.ClassElement` that `generateInterface` inspects.
`modifiers` is `none` when the member is written without modifiers
(`member.modifiers === undefined` in the AST); `initializer` is `none` when
the declaration carries no initializer, and otherwise holds the
initializer's source text (`initializer.getText(sourceFile)`). -/
structure ClassMember where
  isPropertyDeclaration : Bool
  name : String
  modifiers : Option (List ModifierKind)
  initializer : Option String
deriving Repr

/-- The slice of a `ManagedObjectInfo` that `generateInterface` inspects. -/
structure CandidateClass where
  fileName : String
  className : String
  members : List ClassMember
deriving Repr

/-- A thrown `Error` or `TypeError`, carrying its message. -/
structure GenError where
  message : String
deriving Repr

/-- The `TypeError` thrown by `member.modifiers.some(...)` when `modifiers`
is `undefined` (the runtime message quotes the property name `some`). -/
def undefinedModifiersError : GenError :=
  ⟨"TypeError: Cannot read properties of undefined (reading some)"⟩

/-- The `TypeError` thrown by `metadata[0].initializer.getText(...)` when
`initializer` is `undefined` (the runtime message quotes `getText`). -/
def undefinedInitializerError : GenError :=
  ⟨"TypeError: Cannot read properties of undefined (reading getText)"⟩

/-- The filter callback: a property declaration named `metadata` has its
`modifiers` array searched for the `static` keyword — and throws the
`TypeError` when that array is `undefined`; every other member is
rejected without touching `modifiers` (short-circuit `&&`). -/
def metadataMemberTest (m : ClassMember) : Except GenError Bool :=
  if m.isPropertyDeclaration && m.name == "metadata" then
    match m.modifiers with
    | none => .error undefinedModifiersError
    | some mods => .ok (mods.any (fun k => k == ModifierKind.staticKeyword))
  else .ok false

/-- `members.filter(...)` with the fallible callback: elements are tested in
order and the first thrown `TypeError` escapes. -/
def filterMetadataMembers : List ClassMember → Except GenError (List ClassMember)
  | [] => .ok []
  | m :: rest =>
    match metadataMemberTest m with
    | .error e => .error e
    | .ok b =>
      match filterMetadataMembers rest with
      | .error e => .error e
      | .ok r => .ok (if b then m :: r else r)

/-- The message of the error thrown when the relaxed-syntax parser rejects
the metadata block; it names the class and the source file. -/
def parseErrorMessage (className fileName parserMsg : String) : String :=
  "When parsing the metadata of " ++ className ++ " in " ++ fileName ++
    ": metadata is no valid JSON and could not be quick-fixed to be. " ++
    "Please make the metadata at least close to valid JSON. " ++
    "In particular, TypeScript type annotations cannot be used. Error: " ++
    parserMsg

/-- `generateInterface`: `Except.ok none` is the silent "nothing to
generate" return, `Except.ok (some text)` a produced interface text, and
`Except.error` a thrown exception — the `TypeError` of the member filter,
the `TypeError` of the initializer text extraction, or the `Error` re-thrown
on a metadata parse failure. -/
def generateInterface (parse : String → Except String JSValue)
    (render : ClassInfo → Option String) (c : CandidateClass) :
    Except GenError (Option String) :=
  match filterMetadataMembers c.members with
  | .error e => .error e
  | .ok metadata =>
    match metadata with
    | [m] =>
      match m.initializer with
      | none => .error undefinedInitializerError
      | some metadataText =>
        match parse metadataText with
        | .error e => .error ⟨parseErrorMessage c.className c.fileName e⟩
        | .ok metadataObject =>
          if !jsTruthy (getField metadataObject "properties") &&
             !jsTruthy (getField metadataObject "aggregations") &&
             !jsTruthy (getField metadataObject "associations") &&
             !jsTruthy (getField metadataObject "events")
          then .ok none
          else
            let classInfo := collectClassInfo metadataObject c.className
            match render classInfo with
            | none => .ok none
            | some text => .ok (some text)
    | _ => .ok none

/-- `generateInterfaces` over one module: process classes in order,
collecting `(fileName, className, text)` for every truthy result; an
exception aborts the loop, keeping the outputs already emitted and
reporting the error. -/
def generateInterfaces (parse : String → Except String JSValue)
    (render : ClassInfo → Option String) :
    List CandidateClass → List (String × String × String) × Option GenError
  | [] => ([], none)
  | c :: rest =>
    match generateInterface parse render c with
    | .error e => ([], some e)
    | .ok none => generateInterfaces parse render rest
    | .ok (some text) =>
      let r := generateInterfaces parse render rest
      if text == "" then r
      else ((c.fileName, c.className, text) :: r.1, r.2)

/-! Concrete fixtures used by the closed counterexamples and witnesses. -/

/-- A metadata object with one string-shorthand property, as produced by the
external parser for the fixture text `"goodmeta"`. -/
def goodMetadata : JSValue :=
  .obj [("properties", .obj [("text", .str "string")])]

/-- A parser oracle for the fixtures: accepts `"goodmeta"`, rejects
everything else. -/
def testParse : String → Except String JSValue :=
  fun t => if t == "goodmeta" then .ok goodMetadata else .error "Found a punctuator"

/-- A renderer oracle for the fixtures: renders every class into a nonempty
marker text. -/
def testRender : ClassInfo → Option String :=
  fun ci => some ("interface " ++ ci.name)

/-- A fixture class whose metadata block fails to parse. -/
def badClass : CandidateClass :=
  { fileName := "src/Bad.ts", className := "Bad"
    members := [{ isPropertyDeclaration := true, name := "metadata",
                  modifiers := some [ModifierKind.staticKeyword],
                  initializer := some "oops" }] }

/-- A fixture class whose metadata block parses and generates output. -/
def goodClass : CandidateClass :=
  { fileName := "src/Good.ts", className := "Good"
    members := [{ isPropertyDeclaration := true, name := "metadata",
                  modifiers := some [ModifierKind.staticKeyword],
                  initializer := some "goodmeta" }] }

/-- A parser oracle that accepts every block as the empty object. -/
def emptyMetaParse : String → Except String JSValue := fun _ => .ok (.obj [])

/-- A fixture class with two owner-level `metadata` members. -/
def twoMetaClass : CandidateClass :=
  { fileName := "src/Two.ts", className := "Two"
    members := [{ isPropertyDeclaration := true, name := "metadata",
                  modifiers := some [ModifierKind.staticKeyword],
                  initializer := some "a" },
                { isPropertyDeclaration := true, name := "metadata",
                  modifiers := some [ModifierKind.staticKeyword],
                  initializer := some "b" }] }

/-- A fixture class with exactly one owner-level `metadata` member whose
parsed block has none of the four member sections. -/
def emptyMetaClass : CandidateClass :=
  { fileName := "src/Empty.ts", className := "Empty"
    members := [{ isPropertyDeclaration := true, name := "metadata",
                  modifiers := some [ModifierKind.staticKeyword],
                  initializer := some "x" }] }

/-- A fixture class with zero owner-level `metadata` members, but one
instance-level `metadata = {...}` field written without modifiers — the
shape on which the source's member filter throws. -/
def instanceMetaClass : CandidateClass :=
  { fileName := "src/Inst.ts", className := "Inst"
    members := [{ isPropertyDeclaration := true, name := "metadata",
                  modifiers := none,
                  initializer := some "a" }] }

/-- A fixture class whose single static `metadata` member carries no
initializer — the shape on which the source's text extraction throws. -/
def noInitMetaClass : CandidateClass :=
  { fileName := "src/NoInit.ts", className := "NoInit"
    members := [{ isPropertyDeclaration := true, name := "metadata",
                  modifiers := some [ModifierKind.staticKeyword],
                  initializer := none }] }

/-- A fixture settings record with an explicit non-default visibility. -/
def visibleSettings : JSValue := JSValue.obj [("visibility", JSValue.str "hidden")]

/-- A fixture settings record with the bindable flag set and `multiple` unset. -/
def bindableSettings : JSValue := JSValue.obj [("bindable", JSValue.bool true)]

end UI5

/-!
Theorems.

Helper lemmas first, then one theorem per claim (with witnesses and
counterexamples where a claim calls for them).
-/

namespace UI5

/-- Helper: a successful `pickLongest` result is an element of its input. -/
theorem pickLongest_mem {xs : List (List Char × (List Char ⊕ Nat))} {p}
    (h : pickLongest xs = some p) : p ∈ xs := by
  induction xs with
  | nil => simp [pickLongest] at h
  | cons x ys ih =>
    cases hq : pickLongest ys with
    | none =>
      simp only [pickLongest, hq] at h
      injection h with h2
      subst h2
      exact List.mem_cons_self _ _
    | some q =>
      simp only [pickLongest, hq] at h
      by_cases hc : x.1.length < q.1.length
      · rw [if_pos hc] at h
        injection h with h2
        subst h2
        exact List.mem_cons_of_mem _ (ih hq)
      · rw [if_neg hc] at h
        injection h with h2
        subst h2
        exact List.mem_cons_self _ _

/-- Helper: `pickLongest` returns a strict maximum when one exists. -/
theorem pickLongest_eq {xs : List (List Char × (List Char ⊕ Nat))} {p}
    (hmem : p ∈ xs) (hmax : ∀ q ∈ xs, q ≠ p → q.1.length < p.1.length) :
    pickLongest xs = some p := by
  induction xs with
  | nil => cases hmem
  | cons x ys ih =>
    rcases List.mem_cons.mp hmem with hx | hys
    · subst hx
      cases hq : pickLongest ys with
      | none => simp [pickLongest, hq]
      | some q =>
        have hqmem : q ∈ ys := pickLongest_mem hq
        by_cases hqp : q = p
        · subst hqp
          simp [pickLongest, hq]
        · have hlt := hmax q (List.mem_cons_of_mem _ hqmem) hqp
          have hnlt : ¬ (p.1.length < q.1.length) := Nat.lt_asymm hlt
          simp [pickLongest, hq, hnlt]
    · have hys' : pickLongest ys = some p :=
        ih hys (fun q hq hne => hmax q (List.mem_cons_of_mem _ hq) hne)
      simp only [pickLongest, hys']
      by_cases hxp : x = p
      · subst hxp
        simp
      · simp [hmax x (List.mem_cons_self x ys) hxp]

/-- Helper: the suffix table has pairwise distinct keys, so an entry is
determined by its suffix. -/
theorem singularAlts_key_inj :
    ∀ p ∈ singularAlts, ∀ q ∈ singularAlts, p.1 = q.1 → p = q := by
  intro p hp q hq
  fin_cases hp <;> fin_cases hq <;> decide

/-- Helper: the JS regex scan (leftmost match position of the end-anchored
alternation) computes exactly the longest applicable table suffix. -/
theorem guessL_eq_specL (l : List Char) : guessSingularNameL l = singularOfSpecL l := by
  induction l with
  | nil => rfl
  | cons c cs ih =>
    cases hf : singularAlts.find? (fun p => lowerL (c :: cs) == p.1) with
    | some p =>
      have h0 := List.find?_some hf
      have hpeq : lowerL (c :: cs) = p.1 := eq_of_beq h0
      have hpmem : p ∈ singularAlts := List.mem_of_find?_eq_some hf
      have hlen : p.1.length = cs.length + 1 := by
        rw [← hpeq]; simp [lowerL]
      have happ : isApplicableSuffix (c :: cs) p = true := by
        simp [isApplicableSuffix, ← hpeq, List.isSuffixOf_iff_suffix]
      have hpick : pickLongest (singularAlts.filter (isApplicableSuffix (c :: cs))) = some p := by
        apply pickLongest_eq
        · exact List.mem_filter.mpr ⟨hpmem, happ⟩
        · intro q hq hne
          obtain ⟨hqmem, hqapp⟩ := List.mem_filter.mp hq
          have hqsuf : q.1 <:+ lowerL (c :: cs) := by
            rwa [isApplicableSuffix, List.isSuffixOf_iff_suffix] at hqapp
          have hle : q.1.length ≤ p.1.length := by
            have h1 := hqsuf.length_le
            simpa [lowerL, hlen] using h1
          rcases Nat.lt_or_ge q.1.length p.1.length with h | h
          · exact h
          · exfalso
            have heq : q.1.length = p.1.length := Nat.le_antisymm hle h
            have hq1 : q.1 = lowerL (c :: cs) := by
              apply hqsuf.eq_of_length
              rw [heq, hlen]
              simp [lowerL]
            exact hne (singularAlts_key_inj q hqmem p hpmem (hq1.trans hpeq))
      have hzero : cs.length + 1 - p.1.length = 0 := by
        rw [hlen, Nat.sub_self]
      calc guessSingularNameL (c :: cs)
          = applyRepl (c :: cs) p.2 := by
            simp [guessSingularNameL, findMatch, hf]
        _ = singularOfSpecL (c :: cs) := by
            simp [singularOfSpecL, hpick, hzero]
    | none =>
      have hno : ∀ p ∈ singularAlts, lowerL (c :: cs) ≠ p.1 := by
        intro p hp h
        have h2 := List.find?_eq_none.mp hf p hp
        exact h2 (by simp [h])
      have hfe : singularAlts.filter (isApplicableSuffix (c :: cs))
          = singularAlts.filter (isApplicableSuffix cs) := by
        apply List.filter_congr
        intro x hx
        have hcons : lowerL (c :: cs) = Char.toLower c :: lowerL cs := rfl
        have hiff : (x.1 <:+ lowerL (c :: cs)) ↔ (x.1 <:+ lowerL cs) := by
          rw [hcons, List.suffix_cons_iff]
          constructor
          · rintro (h | h)
            · exact absurd (hcons.trans h.symm) (hno x hx)
            · exact h
          · exact Or.inr
        simp only [isApplicableSuffix]
        cases hA : x.1.isSuffixOf (lowerL (c :: cs)) with
        | true =>
          have h1 : x.1 <:+ lowerL cs := hiff.mp (List.isSuffixOf_iff_suffix.mp hA)
          rw [← List.isSuffixOf_iff_suffix] at h1
          exact h1.symm
        | false =>
          cases hB : x.1.isSuffixOf (lowerL cs) with
          | true =>
            exfalso
            have h1 : x.1 <:+ lowerL (c :: cs) :=
              hiff.mpr (List.isSuffixOf_iff_suffix.mp hB)
            rw [← List.isSuffixOf_iff_suffix] at h1
            simp [hA] at h1
          | false => rfl
      have hlhs : guessSingularNameL (c :: cs) = c :: guessSingularNameL cs := by
        cases hm : findMatch cs with
        | none => simp [guessSingularNameL, findMatch, hf, hm]
        | some r => simp [guessSingularNameL, findMatch, hf, hm]
      have hrhs : singularOfSpecL (c :: cs) = c :: singularOfSpecL cs := by
        cases hp : pickLongest (singularAlts.filter (isApplicableSuffix cs)) with
        | none => simp [singularOfSpecL, hfe, hp]
        | some av =>
          obtain ⟨alt, v⟩ := av
          have hmem := pickLongest_mem hp
          obtain ⟨hamem, haapp⟩ := List.mem_filter.mp hmem
          have hasuf : alt <:+ lowerL cs := by
            rwa [isApplicableSuffix, List.isSuffixOf_iff_suffix] at haapp
          have halt : alt.length ≤ cs.length := by
            have h1 := hasuf.length_le
            simpa [lowerL] using h1
          have hsucc : cs.length + 1 - alt.length = (cs.length - alt.length) + 1 :=
            Nat.succ_sub halt
          simp [singularOfSpecL, hfe, hp, hsucc]
      rw [hlhs, hrhs, ih]

/-- Helper: at every recursion depth, the unguarded base-type walk on the
self-loop oracle has not yet produced an answer. -/
theorem gibcFuel_cyclic : ∀ fuel : Nat, gibcFuel cyclicOracle fuel 0 = none := by
  intro fuel
  induction fuel with
  | zero => simp [gibcFuel]
  | succ f ih =>
    rw [gibcFuel]
    have hlk : lookupTier (cyclicOracle.fqn 0) = none := rfl
    rw [hlk]
    have hb : cyclicOracle.baseTypes 0 = [0] := rfl
    have hcl : cyclicOracle.isClassOrInterface 0 = true := rfl
    rw [hcl, if_pos rfl, hb, gibcList, ih]

end UI5

namespace UI5

/-- Claim C1: for every aggregation entry, an unset or `true` "multiple" flag
yields cardinality "0..n" with derived methods exactly get N, destroy N,
insert S, add S, remove S, indexOf S, removeAll N (N the capitalized member
name, S the capitalized singular name), and `multiple: false` yields
cardinality "0..1" with exactly get N, destroy N, set N; in both cases
bind N and unbind N are appended exactly when the bindable flag is set
(truthy).  The method lists are given in the JS object insertion order of
the source. -/
theorem aggregation_multiple_cardinality_methods (n : String) (s : JSValue) :
    ((getField s "multiple" = JSValue.undefined ∨ getField s "multiple" = JSValue.bool true) →
      (mkAggregation n s).cardinality = "0..n" ∧
      (mkAggregation n s).methods =
        [("get", "get" ++ upper n), ("destroy", "destroy" ++ upper n),
         ("insert", "insert" ++ upper (mkAggregation n s).singularName),
         ("add", "add" ++ upper (mkAggregation n s).singularName),
         ("remove", "remove" ++ upper (mkAggregation n s).singularName),
         ("indexOf", "indexOf" ++ upper (mkAggregation n s).singularName),
         ("removeAll", "removeAll" ++ upper n)] ++
          (if jsTruthy (getField s "bindable")
           then [("bind", "bind" ++ upper n), ("unbind", "unbind" ++ upper n)]
           else [])) ∧
    (getField s "multiple" = JSValue.bool false →
      (mkAggregation n s).cardinality = "0..1" ∧
      (mkAggregation n s).methods =
        [("get", "get" ++ upper n), ("destroy", "destroy" ++ upper n),
         ("set", "set" ++ upper n)] ++
          (if jsTruthy (getField s "bindable")
           then [("bind", "bind" ++ upper n), ("unbind", "unbind" ++ upper n)]
           else [])) := by
  constructor
  · intro h
    rcases h with h | h <;> simp [mkAggregation, h, jsIsUndefined, jsTruthy]
  · intro h
    simp [mkAggregation, h, jsIsUndefined, jsTruthy]

/-- Claim C1 witness: concrete aggregations with `multiple` unset (bindable
set) and with `multiple: false`, evaluated. -/
theorem aggregation_multiple_cardinality_methods_witness :
    getField bindableSettings "multiple" = JSValue.undefined ∧
    (mkAggregation "items" bindableSettings).cardinality = "0..n" ∧
    (mkAggregation "items" bindableSettings).methods =
      [("get", "getItems"), ("destroy", "destroyItems"),
       ("insert", "insertItem"), ("add", "addItem"), ("remove", "removeItem"),
       ("indexOf", "indexOfItem"), ("removeAll", "removeAllItems"),
       ("bind", "bindItems"), ("unbind", "unbindItems")] ∧
    (mkAggregation "tooltip" (JSValue.obj [("multiple", JSValue.bool false)])).cardinality = "0..1" ∧
    (mkAggregation "tooltip" (JSValue.obj [("multiple", JSValue.bool false)])).methods =
      [("get", "getTooltip"), ("destroy", "destroyTooltip"), ("set", "setTooltip")] := by
  have h1 := (aggregation_multiple_cardinality_methods "items" bindableSettings).1 (Or.inl rfl)
  have h2 := (aggregation_multiple_cardinality_methods "tooltip"
    (JSValue.obj [("multiple", JSValue.bool false)])).2 rfl
  refine ⟨rfl, h1.1, ?_, h2.1, ?_⟩
  · rw [h1.2]; decide
  · rw [h2.2]; decide

/-- Claim C2: for every association entry, an unset or `false` "multiple"
flag yields cardinality "0..1" with methods exactly get N, set N, and
`multiple: true` yields cardinality "0..n" with methods exactly get N,
add S, remove S, removeAll N — no insert, indexOf, destroy, bind, or unbind
entries ever; the unset default is "0..1", opposite to the aggregation
default. -/
theorem association_multiple_cardinality_methods (n : String) (s : JSValue) :
    ((getField s "multiple" = JSValue.undefined ∨ getField s "multiple" = JSValue.bool false) →
      (mkAssociation n s).cardinality = "0..1" ∧
      (mkAssociation n s).methods = [("get", "get" ++ upper n), ("set", "set" ++ upper n)]) ∧
    (getField s "multiple" = JSValue.bool true →
      (mkAssociation n s).cardinality = "0..n" ∧
      (mkAssociation n s).methods =
        [("get", "get" ++ upper n),
         ("add", "add" ++ upper (mkAssociation n s).singularName),
         ("remove", "remove" ++ upper (mkAssociation n s).singularName),
         ("removeAll", "removeAll" ++ upper n)]) := by
  constructor
  · intro h
    rcases h with h | h <;> simp [mkAssociation, h, jsTruthy]
  · intro h
    simp [mkAssociation, h, jsTruthy]

/-- Claim C2 witness: concrete associations with `multiple` unset and with
`multiple: true`, evaluated. -/
theorem association_multiple_cardinality_methods_witness :
    getField (JSValue.obj []) "multiple" = JSValue.undefined ∧
    (mkAssociation "ariaLabelledBy" (JSValue.obj [])).cardinality = "0..1" ∧
    (mkAssociation "ariaLabelledBy" (JSValue.obj [])).methods =
      [("get", "getAriaLabelledBy"), ("set", "setAriaLabelledBy")] ∧
    (mkAssociation "relatedItems" (JSValue.obj [("multiple", JSValue.bool true)])).cardinality = "0..n" ∧
    (mkAssociation "relatedItems" (JSValue.obj [("multiple", JSValue.bool true)])).methods =
      [("get", "getRelatedItems"), ("add", "addRelatedItem"),
       ("remove", "removeRelatedItem"), ("removeAll", "removeAllRelatedItems")] := by
  have h1 := (association_multiple_cardinality_methods "ariaLabelledBy" (JSValue.obj [])).1 (Or.inl rfl)
  have h2 := (association_multiple_cardinality_methods "relatedItems"
    (JSValue.obj [("multiple", JSValue.bool true)])).2 rfl
  refine ⟨rfl, h1.1, ?_, h2.1, ?_⟩
  · rw [h1.2]; decide
  · rw [h2.2]; decide

/-- Claim C3: `guessSingularName` replaces the longest applicable suffix of
the ordered table (matching case-insensitively, keeping the unmatched prefix
and returning inputs with no matching suffix unchanged — the content of
`singularOfSpec`), and the seven table examples evaluate as stated. -/
theorem guessSingularName_longest_applicable_suffix :
    (∀ s : String, guessSingularName s = singularOfSpec s) ∧
    guessSingularName "buttons" = "button" ∧
    guessSingularName "categories" = "category" ∧
    guessSingularName "leaves" = "leaf" ∧
    guessSingularName "heroes" = "hero" ∧
    guessSingularName "classes" = "class" ∧
    guessSingularName "children" = "child" ∧
    guessSingularName "boxes" = "box" := by
  refine ⟨fun s => ?_, rfl, rfl, rfl, rfl, rfl, rfl, rfl⟩
  unfold guessSingularName singularOfSpec
  rw [guessL_eq_specL]

/-- Claim C4 counterexample: the number `100` is a bare scalar, a default key
is given, yet `expandDefaultKey` does not wrap it — the source tests
`typeof node === "string"`, so only string scalars are wrapped. -/
theorem expandDefaultKey_nonstring_scalar_not_wrapped :
    isBareScalarSpec (JSValue.num 100) = true ∧
    expandDefaultKey (JSValue.num 100) (some "type") ≠
      JSValue.obj [("type", JSValue.num 100)] := by
  refine ⟨rfl, ?_⟩
  intro h
  exact JSValue.noConfusion h

/-- Claim C4 (amended: "bare scalar" narrowed to "bare string"): a bare
string entry with a default key is wrapped as the singleton record; record
entries are returned unchanged; absent entries (`undefined`/`null`)
propagate unchanged; and the three examples of the claim evaluate as
stated. -/
theorem expandDefaultKey_string_record_absent :
    (∀ s k, expandDefaultKey (JSValue.str s) (some k) = JSValue.obj [(k, JSValue.str s)]) ∧
    (∀ fields dk, expandDefaultKey (JSValue.obj fields) dk = JSValue.obj fields) ∧
    (∀ dk, expandDefaultKey JSValue.undefined dk = JSValue.undefined) ∧
    (∀ dk, expandDefaultKey JSValue.null dk = JSValue.null) ∧
    expandDefaultKey (JSValue.str "string") (some "type") =
      JSValue.obj [("type", JSValue.str "string")] ∧
    expandDefaultKey (JSValue.obj [("a", JSValue.num 1)]) (some "type") =
      JSValue.obj [("a", JSValue.num 1)] ∧
    expandDefaultKey JSValue.undefined (some "type") = JSValue.undefined := by
  refine ⟨fun s k => rfl, fun fields dk => ?_, fun dk => ?_, fun dk => ?_, rfl, rfl, rfl⟩
  · cases dk <;> rfl
  · cases dk <;> rfl
  · cases dk <;> rfl

end UI5

namespace UI5

/-- Claim C5 counterexample: with the fixture parser, the module
`[badClass, goodClass]` reports the parse error of `Bad` and emits no output
at all — in particular none for the sibling `Good`, although `Good` alone
does generate output.  The `forEach` in `generateInterfaces` has no
`try`/`catch`, so the error thrown for one class aborts the whole module
loop instead of staying a per-class failure. -/
theorem generateInterfaces_parse_failure_drops_later_sibling :
    generateInterfaces testParse testRender [badClass, goodClass] =
      ([], some ⟨parseErrorMessage "Bad" "src/Bad.ts" "Found a punctuator"⟩) ∧
    generateInterfaces testParse testRender [goodClass] =
      ([("src/Good.ts", "Good", "interface Good")], none) := by
  constructor
  · rfl
  · rfl

/-- Claim C5 (amended): a metadata parse failure throws an error whose
message carries the class name and the source file name; siblings processed
before the failing class keep their output, but the error escapes the module
loop, so siblings after the failing class are not processed. -/
theorem generateInterface_parse_failure_scoping :
    (∀ parse render c m text pe,
      filterMetadataMembers c.members = .ok [m] →
      m.initializer = some text →
      parse text = .error pe →
      generateInterface parse render c =
        .error ⟨parseErrorMessage c.className c.fileName pe⟩) ∧
    (∀ parse render (pre : List CandidateClass) c (post : List CandidateClass) e,
      (generateInterfaces parse render pre).2 = none →
      generateInterface parse render c = .error e →
      generateInterfaces parse render (pre ++ c :: post) =
        ((generateInterfaces parse render pre).1, some e)) := by
  constructor
  · intro parse render c m text pe hfil hinit hp
    unfold generateInterface
    rw [hfil]
    simp [hinit, hp]
  · intro parse render pre c post e hpre hc
    induction pre with
    | nil => simp [generateInterfaces, hc]
    | cons a rest ih =>
      cases ha : generateInterface parse render a with
      | error e2 =>
        exfalso
        simp [generateInterfaces, ha] at hpre
      | ok r =>
        cases r with
        | none =>
          have hpre' : (generateInterfaces parse render rest).2 = none := by
            simpa [generateInterfaces, ha] using hpre
          simp [generateInterfaces, ha, ih hpre']
        | some text =>
          have hpre' : (generateInterfaces parse render rest).2 = none := by
            by_cases hte : text == ""
            · simpa [generateInterfaces, ha, hte] using hpre
            · simpa [generateInterfaces, ha, hte] using hpre
          by_cases hte : text == "" <;>
            simp [generateInterfaces, ha, hte, ih hpre']

/-- Claim C5 witness: the scoping theorem applied to the fixtures — the
thrown error names `Bad` and `src/Bad.ts`, the earlier sibling's output
survives, the later sibling's does not appear. -/
theorem generateInterface_parse_failure_scoping_witness :
    testParse "oops" = .error "Found a punctuator" ∧
    generateInterface testParse testRender badClass =
      .error ⟨parseErrorMessage "Bad" "src/Bad.ts" "Found a punctuator"⟩ ∧
    generateInterfaces testParse testRender ([goodClass] ++ badClass :: [goodClass]) =
      ((generateInterfaces testParse testRender [goodClass]).1,
        some ⟨parseErrorMessage "Bad" "src/Bad.ts" "Found a punctuator"⟩) :=
  ⟨rfl,
   (generateInterface_parse_failure_scoping).1 testParse testRender badClass
      { isPropertyDeclaration := true, name := "metadata",
        modifiers := some [ModifierKind.staticKeyword], initializer := some "oops" }
      "oops" "Found a punctuator" rfl rfl rfl,
   (generateInterface_parse_failure_scoping).2 testParse testRender [goodClass] badClass
      [goodClass] ⟨parseErrorMessage "Bad" "src/Bad.ts" "Found a punctuator"⟩ rfl rfl⟩

/-- Claim C6 counterexample: on the self-loop oracle (a cycle reachable from
the queried type, no registry hit along it), the base-type walk never
returns: no recursion depth produces an answer, because the source recursion
has no visited set and no depth bound. -/
theorem getInterestingBaseClass_cyclic_never_returns : walkDiverges cyclicOracle 0 :=
  gibcFuel_cyclic

/-- Claim C6 (amended): the depth-first base-type walk is unguarded — there
is no visited set or depth bound in the source — and on an oracle whose
base-type graph has a cycle reachable from the queried type with no registry
match along it, the walk recurses forever: at every depth bound `fuel` the
fuel-indexed embedding is still unfinished. -/
theorem getInterestingBaseClass_unguarded_on_cycle (fuel : Nat) :
    gibcFuel cyclicOracle fuel 0 = none :=
  gibcFuel_cyclic fuel

/-- Claim C7 counterexample: `collectClassInfo` takes only the metadata
object and the class name — there is no caller-injected container-element
type — and the aggregation/association type default is the hard-coded
constant `"sap.ui.core.Control"`. -/
theorem aggregation_association_type_default_constant :
    (mkAggregation "items" (JSValue.obj [])).type = JSValue.str "sap.ui.core.Control" ∧
    (mkAssociation "items" (JSValue.obj [])).type = JSValue.str "sap.ui.core.Control" :=
  ⟨rfl, rfl⟩

/-- Claim C7 (amended: the aggregation/association type default is the
hard-coded constant `"sap.ui.core.Control"`, not an externally supplied
name): for entries without a "type" field the aggregation and association
types default to that constant, `property.type` defaults to `"string"`,
and visibility defaults to `"public"` for every member kind. -/
theorem member_type_visibility_defaults (n : String) (s : JSValue)
    (ht : getField s "type" = JSValue.undefined)
    (hv : getField s "visibility" = JSValue.undefined) :
    (mkAggregation n s).type = JSValue.str "sap.ui.core.Control" ∧
    (mkAssociation n s).type = JSValue.str "sap.ui.core.Control" ∧
    (mkProperty n s).type = JSValue.str "string" ∧
    (mkProperty n s).visibility = JSValue.str "public" ∧
    (mkAggregation n s).visibility = JSValue.str "public" ∧
    (mkAssociation n s).visibility = JSValue.str "public" ∧
    (mkSpecialSetting n s).visibility = JSValue.str "public" ∧
    (mkEvent n s).visibility = JSValue.str "public" := by
  simp [mkAggregation, mkAssociation, mkProperty, mkSpecialSetting, mkEvent,
    ht, hv, jsTruthy, jsOr]

/-- Claim C7 witness: the defaults theorem applied to an empty settings
record. -/
theorem member_type_visibility_defaults_witness :
    getField (JSValue.obj []) "type" = JSValue.undefined ∧
    getField (JSValue.obj []) "visibility" = JSValue.undefined ∧
    (mkAggregation "items" (JSValue.obj [])).type = JSValue.str "sap.ui.core.Control" ∧
    (mkProperty "text" (JSValue.obj [])).type = JSValue.str "string" ∧
    (mkProperty "text" (JSValue.obj [])).visibility = JSValue.str "public" :=
  ⟨rfl, rfl,
   (member_type_visibility_defaults "items" (JSValue.obj []) rfl rfl).1,
   (member_type_visibility_defaults "text" (JSValue.obj []) rfl rfl).2.2.1,
   (member_type_visibility_defaults "text" (JSValue.obj []) rfl rfl).2.2.2.1⟩

/-- Claim C8 counterexample: a bare string entry in the events map — where no
default key exists, so the entry is neither scalar-with-default-key nor
record — is not skipped and gets no diagnostic: the loop only skips entries
whose expansion is loosely `null`, and `expandDefaultKey` passes a string
through unchanged when the default key is absent, so an event record is
built from it. -/
theorem each_scalar_event_entry_not_skipped :
    (eachM [("press", JSValue.str "detail")] none (fun n s => (n, mkEvent n s))).2 = [] ∧
    (eachM [("press", JSValue.str "detail")] none (fun n s => (n, mkEvent n s))).1 =
      [("press", mkEvent "press" (JSValue.str "detail"))] :=
  ⟨rfl, rfl⟩

/-- Claim C8 (amended: "cannot expand" means the expansion is loosely `null`,
i.e. the entry itself is `null`/`undefined`; other unexpandable shapes such
as scalars in the no-default-key events position are passed through to
record construction): the member loop skips exactly the entries whose
expansion is nullish, emits one diagnostic per skipped entry, and builds the
callback record for every other entry — it never aborts the class; and the
normalizer's properties map is exactly this loop's output. -/
theorem each_skips_exactly_nullish_expansions :
    (∀ {α : Type} (m : List (String × JSValue)) (dk : Option String)
        (f : String → JSValue → α),
      (eachM m dk f).1 =
        (m.filter (fun p => !isNullish (expandDefaultKey p.2 dk))).map
          (fun p => f p.1 (expandDefaultKey p.2 dk)) ∧
      (eachM m dk f).2 =
        (m.filter (fun p => isNullish (expandDefaultKey p.2 dk))).map
          (fun p => eachWarning p.1 p.2)) ∧
    (∀ md cn, jsTruthy md = true →
      (collectClassInfo md cn).properties =
        (eachM (jsOwnEntries (getField md "properties")) (some "type")
          (fun n s => (n, mkProperty n s))).1) := by
  constructor
  · intro α m dk f
    induction m with
    | nil => exact ⟨rfl, rfl⟩
    | cons p rest ih =>
      obtain ⟨n, v⟩ := p
      cases hn : isNullish (expandDefaultKey v dk) <;>
        simp [eachM, hn, ih.1, ih.2]
  · intro md cn h
    simp [collectClassInfo, h]

/-- Claim C8 witness: a properties map with a `null` entry between two good
entries — the `null` entry is skipped with one diagnostic, the two sibling
records are produced. -/
theorem each_skips_exactly_nullish_expansions_witness :
    jsTruthy (JSValue.obj [("properties", JSValue.obj
        [("text", JSValue.str "string"), ("mid", JSValue.null),
         ("width", JSValue.str "int")])]) = true ∧
    (collectClassInfo (JSValue.obj [("properties", JSValue.obj
        [("text", JSValue.str "string"), ("mid", JSValue.null),
         ("width", JSValue.str "int")])]) "Widget").properties =
      (eachM [("text", JSValue.str "string"), ("mid", JSValue.null),
              ("width", JSValue.str "int")] (some "type")
        (fun n s => (n, mkProperty n s))).1 ∧
    (eachM [("text", JSValue.str "string"), ("mid", JSValue.null),
            ("width", JSValue.str "int")] (some "type")
      (fun n s => (n, mkProperty n s))).2 = [eachWarning "mid" JSValue.null] ∧
    ((eachM [("text", JSValue.str "string"), ("mid", JSValue.null),
             ("width", JSValue.str "int")] (some "type")
       (fun n s => (n, mkProperty n s))).1).map Prod.fst = ["text", "width"] := by
  refine ⟨rfl,
    (each_skips_exactly_nullish_expansions).2 (JSValue.obj [("properties", JSValue.obj
        [("text", JSValue.str "string"), ("mid", JSValue.null),
         ("width", JSValue.str "int")])]) "Widget" rfl, ?_, ?_⟩
  · rw [((each_skips_exactly_nullish_expansions).1 [("text", JSValue.str "string"),
      ("mid", JSValue.null), ("width", JSValue.str "int")] (some "type")
      (fun n s => (n, mkProperty n s))).2]
    decide
  · rw [((each_skips_exactly_nullish_expansions).1 [("text", JSValue.str "string"),
      ("mid", JSValue.null), ("width", JSValue.str "int")] (some "type")
      (fun n s => (n, mkProperty n s))).1]
    rfl

/-- Helper: if some member of the list is a metadata-named property
declaration without modifiers, the member filter throws the `TypeError`
(whichever such member is reached first, the thrown value is the same). -/
theorem filterMetadataMembers_error {ms : List ClassMember}
    (hex : ∃ m ∈ ms, m.isPropertyDeclaration = true ∧ m.name = "metadata" ∧
      m.modifiers = none) :
    filterMetadataMembers ms = .error undefinedModifiersError := by
  induction ms with
  | nil =>
    obtain ⟨m, hm, _⟩ := hex
    cases hm
  | cons a rest ih =>
    by_cases hbad : a.isPropertyDeclaration = true ∧ a.name = "metadata" ∧
        a.modifiers = none
    · obtain ⟨h1, h2, h3⟩ := hbad
      simp [filterMetadataMembers, metadataMemberTest, h1, h2, h3]
    · obtain ⟨m, hm, hb⟩ := hex
      rcases List.mem_cons.mp hm with rfl | hmr
      · exact absurd hb hbad
      · have hrest := ih ⟨m, hmr, hb⟩
        have hok : ∃ b, metadataMemberTest a = .ok b := by
          unfold metadataMemberTest
          by_cases hc : (a.isPropertyDeclaration && a.name == "metadata") = true
          · rw [if_pos hc]
            cases hmods : a.modifiers with
            | none =>
              exfalso
              apply hbad
              simp only [Bool.and_eq_true, beq_iff_eq] at hc
              exact ⟨hc.1, hc.2, hmods⟩
            | some mods => exact ⟨_, rfl⟩
          · rw [if_neg hc]
            exact ⟨false, rfl⟩
        obtain ⟨b, hb2⟩ := hok
        simp [filterMetadataMembers, hb2, hrest]

/-- Claim C9 counterexample: two candidate classes with zero qualifying
owner-level reserved metadata fields for which interface generation raises
an error instead of dropping silently.  `instanceMetaClass` has one
instance-level `metadata = {...}` field written without modifiers, so the
source's filter callback throws at `member.modifiers.some(...)`;
`noInitMetaClass` has one static `metadata` member without initializer, so
the source throws at `metadata[0].initializer.getText(...)`. -/
theorem generateInterface_throws_despite_nothing_to_generate :
    generateInterface emptyMetaParse testRender instanceMetaClass =
      .error undefinedModifiersError ∧
    generateInterface emptyMetaParse testRender noInitMetaClass =
      .error undefinedInitializerError :=
  ⟨rfl, rfl⟩

/-- Claim C9 (amended: the silent drop holds only where the two unguarded
member accesses do not throw): when the member filter completes, zero or
several collected `metadata` members produce no output and no error, and so
does a single collected member whose initializer text parses to a block
with none of the four member sections; but a metadata-named property
declaration without modifiers makes the member filter throw its
`TypeError`, and a single collected member without initializer makes the
text extraction throw its `TypeError`. -/
theorem generateInterface_silent_drop_and_typeerrors :
    (∀ parse render c l, filterMetadataMembers c.members = .ok l →
      l.length ≠ 1 → generateInterface parse render c = .ok none) ∧
    (∀ parse render c m text mo, filterMetadataMembers c.members = .ok [m] →
      m.initializer = some text →
      parse text = .ok mo →
      jsTruthy (getField mo "properties") = false →
      jsTruthy (getField mo "aggregations") = false →
      jsTruthy (getField mo "associations") = false →
      jsTruthy (getField mo "events") = false →
      generateInterface parse render c = .ok none) ∧
    (∀ parse render c, (∃ m ∈ c.members, m.isPropertyDeclaration = true ∧
        m.name = "metadata" ∧ m.modifiers = none) →
      generateInterface parse render c = .error undefinedModifiersError) ∧
    (∀ parse render c m, filterMetadataMembers c.members = .ok [m] →
      m.initializer = none →
      generateInterface parse render c = .error undefinedInitializerError) := by
  refine ⟨?_, ?_, ?_, ?_⟩
  · intro parse render c l hfil hlen
    unfold generateInterface
    rw [hfil]
    cases l with
    | nil => rfl
    | cons a rest =>
      cases rest with
      | nil => exact absurd rfl hlen
      | cons b rest2 => rfl
  · intro parse render c m text mo hfil hinit hp h1 h2 h3 h4
    unfold generateInterface
    rw [hfil]
    simp [hinit, hp, h1, h2, h3, h4]
  · intro parse render c hex
    unfold generateInterface
    rw [filterMetadataMembers_error hex]
  · intro parse render c m hfil hinit
    unfold generateInterface
    rw [hfil]
    simp [hinit]

/-- Claim C9 witness: the amended theorem applied to concrete fixtures —
two metadata members, an empty parsed block, the modifier-less instance
field, and the initializer-less static member. -/
theorem generateInterface_silent_drop_and_typeerrors_witness :
    filterMetadataMembers twoMetaClass.members = .ok twoMetaClass.members ∧
    generateInterface emptyMetaParse testRender twoMetaClass = .ok none ∧
    generateInterface emptyMetaParse testRender emptyMetaClass = .ok none ∧
    generateInterface emptyMetaParse testRender instanceMetaClass =
      .error undefinedModifiersError ∧
    generateInterface emptyMetaParse testRender noInitMetaClass =
      .error undefinedInitializerError :=
  ⟨rfl,
   (generateInterface_silent_drop_and_typeerrors).1 emptyMetaParse testRender
     twoMetaClass twoMetaClass.members rfl (by decide),
   (generateInterface_silent_drop_and_typeerrors).2.1 emptyMetaParse testRender
     emptyMetaClass
     { isPropertyDeclaration := true, name := "metadata",
       modifiers := some [ModifierKind.staticKeyword], initializer := some "x" }
     "x" (.obj []) rfl rfl rfl rfl rfl rfl rfl,
   (generateInterface_silent_drop_and_typeerrors).2.2.1 emptyMetaParse testRender
     instanceMetaClass
     ⟨{ isPropertyDeclaration := true, name := "metadata",
        modifiers := none, initializer := some "a" },
      List.mem_cons_self _ _, rfl, rfl, rfl⟩,
   (generateInterface_silent_drop_and_typeerrors).2.2.2 emptyMetaParse testRender
     noInitMetaClass
     { isPropertyDeclaration := true, name := "metadata",
       modifiers := some [ModifierKind.staticKeyword], initializer := none }
     rfl rfl⟩

/-- Claim C10: every produced event record has visibility exactly the
constant "public" — the source comments out the `settings.visibility` read —
while properties, aggregations, and associations copy a truthy declared
visibility through. -/
theorem event_visibility_constant_public (n : String) (s : JSValue) :
    (mkEvent n s).visibility = JSValue.str "public" ∧
    (jsTruthy (getField s "visibility") = true →
      (mkProperty n s).visibility = getField s "visibility" ∧
      (mkAggregation n s).visibility = getField s "visibility" ∧
      (mkAssociation n s).visibility = getField s "visibility") := by
  refine ⟨rfl, fun h => ?_⟩
  simp [mkProperty, mkAggregation, mkAssociation, jsOr, h]

/-- Claim C10 witness: with a declared visibility "hidden", the event record
still gets "public" while the property record copies "hidden" through. -/
theorem event_visibility_constant_public_witness :
    jsTruthy (getField visibleSettings "visibility") = true ∧
    (mkEvent "press" visibleSettings).visibility = JSValue.str "public" ∧
    (mkProperty "text" visibleSettings).visibility = getField visibleSettings "visibility" :=
  ⟨rfl,
   (event_visibility_constant_public "press" visibleSettings).1,
   ((event_visibility_constant_public "text" visibleSettings).2 rfl).1⟩

end UI5
